import Mathlib

/-!
Shallow embedding of the CHIP-8 interpreter in `src/chippy/chippy.rs`
(struct `Chippy`, functions `Chippy::new`, `Chippy::load_game`,
`Chippy::emulate_cycle`), together with theorems settling the frozen
claims about it.

Conventions of the embedding:
* Machine integers are `Nat`, reduced modulo `2^8` / `2^16` exactly where
  the Rust `u8` / `u16` operations wrap (release-profile wrapping
  semantics for the arithmetic overflow cases).
* The fixed-size Rust arrays (`[u8; 4096]`, `[u8; 16]`, `[u16; 16]`,
  `[u8; 64*32]`, `[bool; 16]`) are `List`s; an indexed access whose index
  can exceed the array bound in the source is modelled with `List.get?` /
  a guarded write, and `none` models the Rust index-out-of-bounds panic.
  Register/keypad/display indices that are nibble-bounded by construction
  in the source (always `< 16`, resp. `< 2048`) use total `getD`/`set`.
* Fallible operations return `Option`; `none` means the Rust code panics.
* `rand::random::<u8>()` (used only by `Cxnn`) is an explicit parameter
  `rnd` of the step function.
-/

namespace Chip8

/-- The machine-state fields of `struct Chippy` (`chippy.rs` lines 18-48);
the SDL audio handles are host resources, not machine state, and are
omitted. -/
structure Chippy where
  memory : List Nat
  v : List Nat
  i : Nat
  pc : Nat
  display : List Nat
  stack : List Nat
  sp : Nat
  delay_timer : Nat
  sound_timer : Nat
  keypad : List Bool

/-- `Chippy::new` (lines 68-81): every field zeroed, including `pc`
(the source comment says "programs start at 0x200" but initialises
`pc: 0`). -/
def Chippy.new : Chippy where
  memory := List.replicate 4096 0
  v := List.replicate 16 0
  i := 0
  pc := 0
  display := List.replicate (64 * 32) 0
  stack := List.replicate 16 0
  sp := 0
  delay_timer := 0
  sound_timer := 0
  keypad := List.replicate 16 false

/-- Indexed store `l[idx] = b` into a Rust array: panics (`none`) when
`idx` is out of bounds. -/
def wr (l : List Nat) (idx b : Nat) : Option (List Nat) :=
  if idx < l.length then some (l.set idx b) else none

/-- The loop body of `load_game` (lines 90-94): write the ROM bytes one
by one starting at `idx = 0x200`, with no size check.  Returns the state
as mutated so far, paired with `false` when the write runs past the end
of memory (the Rust index panic), `true` when every byte was written. -/
def load_game_run : Nat → List Nat → Chippy → Chippy × Bool
  | _, [], s => (s, true)
  | idx, b :: rest, s =>
    if idx < s.memory.length then
      load_game_run (idx + 1) rest { s with memory := s.memory.set idx b }
    else (s, false)

/-- Code after the opcode dispatch in `emulate_cycle` (lines 366-376):
decrement each timer if nonzero, then the unconditional `self.pc += 2`.
This tail runs for every instruction, jumps and calls included. -/
def cycle_end (s : Chippy) : Chippy :=
  let s1 := if 0 < s.delay_timer then { s with delay_timer := s.delay_timer - 1 } else s
  let s2 := if 0 < s1.sound_timer then { s1 with sound_timer := s1.sound_timer - 1 } else s1
  { s2 with pc := (s2.pc + 2) % 65536 }

/-- The `Fx55` loop (lines 346-348): `for i in 0..=x { memory[I+i] = v[i] }`.
`k` is the current register index, the second argument the number of
iterations left. -/
def regs_to_mem (v : List Nat) (base : Nat) : Nat → Nat → List Nat → Option (List Nat)
  | _, 0, m => some m
  | k, cnt + 1, m => do
    let m2 ← wr m (base + k) (v.getD k 0)
    regs_to_mem v base (k + 1) cnt m2

/-- The `Fx65` loop (lines 352-354): `for i in 0..=x { v[i] = memory[I+i] }`. -/
def mem_to_regs (m : List Nat) (base : Nat) : Nat → Nat → List Nat → Option (List Nat)
  | _, 0, v => some v
  | k, cnt + 1, v => do
    let b ← m.get? (base + k)
    mem_to_regs m base (k + 1) cnt (v.set k b)

/-- Inner loop of the `Dxyn` draw (lines 256-271): draw the 8 bits of one
sprite row.  Arguments: bits left, `pixel_row` (u8), `pixel_x`, `pixel_y`,
display, current VF.  The display index `pixel_y*64 + pixel_x` is always
in bounds because both coordinates are reduced modulo 64 / 32. -/
def draw_bits : Nat → Nat → Nat → Nat → List Nat → Nat → List Nat × Nat
  | 0, _, _, _, d, vf => (d, vf)
  | bits + 1, prow, px, py, d, vf =>
    let pv := prow >>> 7
    let idx := py * 64 + px
    let r :=
      if pv = 1 then
        if d.getD idx 0 ≠ 0 then (d.set idx 0, 1) else (d.set idx 1, vf)
      else (d, vf)
    draw_bits bits ((prow <<< 1) % 256) ((px + 1) % 64) py r.1 r.2

/-- Outer loop of the `Dxyn` draw (lines 249-272): for each of the `n`
rows, fetch the sprite byte at `memory[I + row]` (a u16 add, then an
indexing that panics past the end of memory) and blit its bits. -/
def draw_rows (mem : List Nat) (i x y : Nat) : Nat → Nat → List Nat → Nat → Option (List Nat × Nat)
  | _, 0, d, vf => some (d, vf)
  | row, cnt + 1, d, vf => do
    let sprite ← mem.get? ((i + row) % 65536)
    let r := draw_bits 8 sprite x ((y + row) % 32) d vf
    draw_rows mem i x y (row + 1) cnt r.1 r.2

/-- The `match opcode & 0xF000` dispatch of `emulate_cycle`
(lines 108-364), with the arms in source order.  Note that the scrutinee
always has its low twelve bits zero, so the `0x00E0` and `0x00EE` arms
are unreachable, exactly as in the source: those opcodes fall into the
`0x0000` machine-routine arm. -/
def exec_opcode (rnd op : Nat) (s : Chippy) : Option Chippy :=
  let hi := op &&& 0xF000
  if hi = 0xA000 then
    some { s with i := op &&& 0x0FFF }
  else if hi = 0x00E0 then
    some { s with display := s.display.map fun _ => 0 }
  else if hi = 0x0000 then
    some { s with pc := (s.pc + 2) % 65536 }
  else if hi = 0x1000 then
    some { s with pc := op &&& 0x0FFF }
  else if hi = 0x2000 then do
    let st ← wr s.stack s.sp s.pc
    some { s with stack := st, sp := s.sp + 1, pc := op &&& 0x0FFF }
  else if hi = 0x00EE then
    let sp2 := if 0 < s.sp then s.sp - 1 else s.sp
    do
      let a ← s.stack.get? sp2
      some { s with sp := sp2, pc := a }
  else if hi = 0x3000 then
    let x := (op &&& 0x0F00) >>> 8
    some (if s.v.getD x 0 = op &&& 0x00FF then { s with pc := (s.pc + 2) % 65536 } else s)
  else if hi = 0x4000 then
    let x := (op &&& 0x0F00) >>> 8
    some (if s.v.getD x 0 ≠ op &&& 0x00FF then { s with pc := (s.pc + 2) % 65536 } else s)
  else if hi = 0x5000 then
    let x := (op &&& 0x0F00) >>> 8
    let y := (op &&& 0x00F0) >>> 4
    some (if s.v.getD x 0 = s.v.getD y 0 then { s with pc := (s.pc + 2) % 65536 } else s)
  else if hi = 0x9000 then
    let x := (op &&& 0x0F00) >>> 8
    let y := (op &&& 0x00F0) >>> 4
    some (if s.v.getD x 0 ≠ s.v.getD y 0 then { s with pc := (s.pc + 2) % 65536 } else s)
  else if hi = 0x6000 then
    let x := (op &&& 0x0F00) >>> 8
    some { s with v := s.v.set x (op &&& 0x00FF) }
  else if hi = 0x7000 then
    let x := (op &&& 0x0F00) >>> 8
    some { s with v := s.v.set x ((s.v.getD x 0 + (op &&& 0x00FF)) % 256) }
  else if hi = 0x8000 then
    let x := (op &&& 0x0F00) >>> 8
    let y := (op &&& 0x00F0) >>> 4
    let n := op &&& 0x0F
    if n = 0x0 then some { s with v := s.v.set x (s.v.getD y 0) }
    else if n = 0x1 then some { s with v := s.v.set x (s.v.getD x 0 ||| s.v.getD y 0) }
    else if n = 0x2 then some { s with v := s.v.set x (s.v.getD x 0 &&& s.v.getD y 0) }
    else if n = 0x3 then some { s with v := s.v.set x (s.v.getD x 0 ^^^ s.v.getD y 0) }
    else if n = 0x4 then
      let r := (s.v.getD x 0 + s.v.getD y 0) % 256
      let c := if 256 ≤ s.v.getD x 0 + s.v.getD y 0 then 1 else 0
      some { s with v := (s.v.set x r).set 0xF c }
    else if n = 0x5 then
      let r := (s.v.getD x 0 + 256 - s.v.getD y 0) % 256
      let c := if s.v.getD x 0 < s.v.getD y 0 then 0 else 1
      some { s with v := (s.v.set x r).set 0xF c }
    else if n = 0x7 then
      let r := (s.v.getD y 0 + 256 - s.v.getD x 0) % 256
      let c := if s.v.getD y 0 < s.v.getD x 0 then 0 else 1
      some { s with v := (s.v.set x r).set 0xF c }
    else if n = 0x6 then
      let v1 := s.v.set 0xF (s.v.getD x 0 &&& 0x1)
      some { s with v := v1.set x (v1.getD x 0 >>> 1) }
    else if n = 0xE then
      let v1 := s.v.set 0xF ((s.v.getD x 0 >>> 7) &&& 0x1)
      some { s with v := v1.set x ((v1.getD x 0 <<< 1) % 256) }
    else some s
  else if hi = 0xB000 then
    some { s with pc := ((op &&& 0x0FFF) + s.v.getD 0 0) % 65536 }
  else if hi = 0xC000 then
    let x := (op &&& 0x0F00) >>> 8
    some { s with v := s.v.set x ((rnd % 256) &&& (op &&& 0x00FF)) }
  else if hi = 0xD000 then
    let x := s.v.getD ((op &&& 0x0F00) >>> 8) 0 % 64
    let y := s.v.getD ((op &&& 0x00F0) >>> 4) 0 % 32
    let n := op &&& 0x0F
    let v1 := s.v.set 0xF 0
    do
      let r ← draw_rows s.memory s.i x y 0 n s.display 0
      some { s with display := r.1, v := v1.set 0xF r.2, i := (s.i + n) % 65536 }
  else if hi = 0xE000 then
    let x := (op &&& 0x0F00) >>> 8
    if op &&& 0x00FF = 0x9E then do
      let k ← s.keypad.get? (s.v.getD x 0)
      some (if k then { s with pc := (s.pc + 2) % 65536 } else s)
    else if op &&& 0x00FF = 0xA1 then do
      let k ← s.keypad.get? (s.v.getD x 0)
      some (if k then s else { s with pc := (s.pc + 2) % 65536 })
    else some s
  else if hi = 0xF000 then
    let x := (op &&& 0x0F00) >>> 8
    let lo := op &&& 0x00FF
    if lo = 0x07 then some { s with v := s.v.set x s.delay_timer }
    else if lo = 0x15 then some { s with delay_timer := s.v.getD x 0 }
    else if lo = 0x18 then some { s with sound_timer := s.v.getD x 0 }
    else if lo = 0x1E then some { s with i := (s.i + s.v.getD x 0) % 65536 }
    else if lo = 0x0A then
      let pressed := (List.range 16).foldl
        (fun acc k => if s.keypad.getD k false then some k else acc) none
      match pressed with
      | some k => some { s with v := s.v.set x k }
      | none => some { s with pc := (s.pc + 65536 - 2) % 65536 }
    else if lo = 0x29 then some { s with i := s.v.getD x 0 * 5 }
    else if lo = 0x33 then do
      let m1 ← wr s.memory s.i (s.v.getD x 0 / 100)
      let m2 ← wr m1 (s.i + 1) (s.v.getD x 0 / 10 % 10)
      let m3 ← wr m2 (s.i + 2) (s.v.getD x 0 % 100 % 10)
      some { s with memory := m3 }
    else if lo = 0x55 then do
      let m ← regs_to_mem s.v s.i 0 (x + 1) s.memory
      some { s with memory := m }
    else if lo = 0x65 then do
      let v2 ← mem_to_regs s.memory s.i 0 (x + 1) s.v
      some { s with v := v2 }
    else some s
  else some s

/-- Execution of one already-fetched instruction word: the dispatch
followed by the unconditional timer/PC tail of `emulate_cycle`. -/
def exec_op (rnd op : Nat) (s : Chippy) : Option Chippy :=
  (exec_opcode rnd op s).map cycle_end

/-- `emulate_cycle` (lines 104-377): fetch two bytes at `PC`/`PC+1`
big-endian, then execute. -/
def emulate_cycle (rnd : Nat) (s : Chippy) : Option Chippy := do
  let b1 ← s.memory.get? s.pc
  let b2 ← s.memory.get? ((s.pc + 1) % 65536)
  exec_op rnd ((b1 <<< 8) ||| b2) s

/-- Concrete state with one lit pixel, for exercising `00E0`. -/
def clear_test_state : Chippy :=
  { Chippy.new with display := Chippy.new.display.set 5 1 }

/-- Concrete state with one pushed return address, for exercising `00EE`. -/
def ret_test_state : Chippy :=
  { Chippy.new with stack := Chippy.new.stack.set 0 0x0400, sp := 1, pc := 0x200 }

/-- Concrete state whose program is `6105` (set V1 := 5) at address 0,
with both timers running, for exercising the per-cycle timer
decrements. -/
def timer_test_state : Chippy :=
  { Chippy.new with
      memory := (Chippy.new.memory.set 0 0x61).set 1 0x05
      pc := 0
      delay_timer := 5
      sound_timer := 7 }

/-- Concrete state with a one-byte sprite `0x80` at address 2 and `I = 2`,
for exercising `Dxyn`. -/
def draw_test_state : Chippy :=
  { Chippy.new with memory := Chippy.new.memory.set 2 0x80, i := 2 }

/-- Concrete state with distinctive register values, for exercising the
`Fx55`/`Fx65` round trip. -/
def bulk_test_state : Chippy :=
  { Chippy.new with
      v := (((Chippy.new.v.set 0 0xAA).set 1 0xBB).set 2 0xCC).set 3 0xDD
      i := 0x320 }

/-- Concrete state with `V0 = 0xFF`, `V1 = 0x01`, for the ADD flag case. -/
def alu_add_state : Chippy :=
  { Chippy.new with v := (Chippy.new.v.set 0 0xFF).set 1 0x01 }

/-- Concrete state with `V0 = 0x01`, `V1 = 0x02`, for the SUB flag case. -/
def alu_sub_state : Chippy :=
  { Chippy.new with v := (Chippy.new.v.set 0 0x01).set 1 0x02 }

/-- Concrete state with `V0 = 0x81`, for the shift flag cases. -/
def alu_shift_state : Chippy :=
  { Chippy.new with v := Chippy.new.v.set 0 0x81 }

lemma getD_set_self {l : List Nat} {i a d : Nat} (h : i < l.length) :
    (l.set i a).getD i d = a := by
  simp [List.getD_eq_getElem?_getD, List.getElem?_set_self h]

lemma getD_set_ne {l : List Nat} {a d i j : Nat} (h : i ≠ j) :
    (l.set i a).getD j d = l.getD j d := by
  simp [List.getD_eq_getElem?_getD, List.getElem?_set_ne h]

lemma cycle_end_v (s : Chippy) : (cycle_end s).v = s.v := by
  simp only [cycle_end]
  split_ifs <;> rfl

lemma cycle_end_i (s : Chippy) : (cycle_end s).i = s.i := by
  simp only [cycle_end]
  split_ifs <;> rfl

lemma cycle_end_memory (s : Chippy) : (cycle_end s).memory = s.memory := by
  simp only [cycle_end]
  split_ifs <;> rfl

/-- Claim C1.  The claim holds for ordinary and skip instructions, but
its jump/call part is false: `emulate_cycle` ends with an unconditional
`self.pc += 2` (line 376) that also runs after `1nnn`, `2nnn`, `Bnnn`
and `00EE`, so a jump to `nnn` leaves `PC = nnn + 2`, not `nnn`.
Concretely, executing `0x1300` from the fresh state lands at `0x302`,
calling `0x2300` lands at `0x302`, and `0xB300` (with `V0 = 0`) lands at
`0x302`, while the claim requires `0x300` in each case. -/
theorem jump_call_get_extra_advance :
    (exec_op 0 0x1300 Chippy.new).map Chippy.pc = some 0x302 ∧
    (exec_op 0 0x2300 Chippy.new).map (fun t => (t.pc, t.sp)) = some (0x302, 1) ∧
    (exec_op 0 0xB300 Chippy.new).map Chippy.pc = some 0x302 :=
  ⟨rfl, rfl, rfl⟩

/-- Claim C2.  False on the code: the `0x00E0` arm of
`match opcode & 0xF000` is unreachable (the scrutinee always has its low
twelve bits zero), so `0x00E0` falls into the `0x0000` machine-routine
arm and the display is not cleared.  Starting from a state whose pixel 5
is lit, executing `0x00E0` leaves the display unchanged with that pixel
still lit. -/
theorem clear_opcode_leaves_display :
    (exec_op 0 0x00E0 clear_test_state).map Chippy.display =
      some clear_test_state.display ∧
    clear_test_state.display.getD 5 0 = 1 :=
  ⟨rfl, rfl⟩

/-- Claim C3.  False on the code: the `0x00EE` arm of
`match opcode & 0xF000` is unreachable for the same masking reason as
`0x00E0`, so `0x00EE` is treated as the `0x0000` no-op: the stack pointer
stays untouched, nothing is popped into `PC`, and `PC` advances by 4
(the in-arm `+2` plus the trailing `+2`).  Starting with `sp = 1`,
`stack[0] = 0x0400` and `pc = 0x200`, executing `0x00EE` yields
`pc = 0x204` and `sp = 1` instead of `pc = 0x400` and `sp = 0`; an
empty-stack `00EE` is likewise a silent no-op, not an error. -/
theorem ret_opcode_ignores_stack :
    (exec_op 0 0x00EE ret_test_state).map (fun t => (t.pc, t.sp)) =
      some (0x204, 1) :=
  rfl

/-- Claim C4.  False on the code: `Chippy::new` initialises every field
to zero, including `pc: 0`, despite its own comment "programs start at
0x200"; the program counter does not start at `0x200` and nothing else
ever sets it there. -/
theorem new_pc_not_0x200 :
    Chippy.new.pc = 0 ∧ Chippy.new.pc ≠ 0x200 :=
  ⟨rfl, by decide⟩

set_option maxRecDepth 2000 in
set_option maxRecDepth 2000 in
/-- Claim C5.  False on the code: the timer decrements live inside
`emulate_cycle` (lines 366-374), so every instruction cycle — here two
consecutive `6xnn` / `0nnn` cycles, neither a timer-access instruction —
decrements both timers: starting from `delay = 5`, `sound = 7`, one
cycle yields `(4, 6)` and two cycles yield `(3, 5)`, where the claim
requires the timers to be unchanged by instruction execution. -/
theorem timers_decrement_every_cycle :
    (emulate_cycle 0 timer_test_state).map
      (fun t => (t.delay_timer, t.sound_timer)) = some (4, 6) ∧
    ((emulate_cycle 0 timer_test_state).bind (emulate_cycle 0)).map
      (fun t => (t.delay_timer, t.sound_timer)) = some (3, 5) :=
  ⟨rfl, rfl⟩

/-- Claim C6.  False on the code: the `Dxyn` handler ends with
`self.i += n` (line 274), so the second of two identical `D001` draws
reads its sprite byte from `memory[I + 1]` (which is zero) rather than
`memory[I]`, draws nothing, and leaves the pixel lit with `VF = 0` —
not pixel off with `VF = 1` as the claim states.  First draw: pixel 0
on, `VF = 0`, `I` bumped from 2 to 3; second draw: pixel 0 still on,
`VF = 0`. -/
theorem second_draw_misses_sprite :
    (exec_op 0 0xD001 draw_test_state).map
      (fun t => (t.display.getD 0 0, t.v.getD 0xF 0, t.i)) =
      some (1, 0, 3) ∧
    ((exec_op 0 0xD001 draw_test_state).bind (exec_op 0 0xD001)).map
      (fun t => (t.display.getD 0 0, t.v.getD 0xF 0)) = some (1, 0) :=
  ⟨rfl, rfl⟩

lemma load_run_cons (idx b : Nat) (rest : List Nat) (s : Chippy)
    (h : idx < s.memory.length) :
    load_game_run idx (b :: rest) s =
      load_game_run (idx + 1) rest { s with memory := s.memory.set idx b } := by
  simp only [load_game_run]
  rw [if_pos h]

lemma load_run_getD_of_lt (rom : List Nat) :
    ∀ base n d s, n < base →
      ((load_game_run base rom s).1).memory.getD n d = s.memory.getD n d := by
  induction rom with
  | nil => intro base n d s _; rfl
  | cons b rest ih =>
    intro base n d s h
    simp only [load_game_run]
    by_cases hlt : base < s.memory.length
    · rw [if_pos hlt, ih (base + 1) n d _ (by omega)]
      exact getD_set_ne (by omega)
    · rw [if_neg hlt]

lemma load_run_false_of_overflow (rom : List Nat) :
    ∀ base s, s.memory.length = 4096 → base ≤ 4096 →
      4096 < base + rom.length → (load_game_run base rom s).2 = false := by
  induction rom with
  | nil =>
    intro base s _ h2 h3
    simp only [List.length_nil] at h3
    omega
  | cons b rest ih =>
    intro base s h1 h2 h3
    simp only [load_game_run, List.length_cons] at h3 ⊢
    by_cases hlt : base < s.memory.length
    · rw [if_pos hlt]
      exact ih (base + 1) _ (by simpa using h1) (by omega) (by omega)
    · rw [if_neg hlt]

/-- Claim C7.  False on the code: `load_game` has no size check at all —
its loop writes every ROM byte from `0x200` upward and the only failure
is the out-of-bounds index panic once the 3585th byte reaches index
4096.  For a 3585-byte ROM the run ends in the panic (`false`), not in a
`LoadError` sent to the caller, and by then the first 3584 bytes are
already in memory (byte `0x01` is observable at `0x200`), so the failure
is not atomic. -/
theorem oversize_rom_partial_write :
    (load_game_run 0x200 (List.replicate 3585 1) Chippy.new).2 = false ∧
    ((load_game_run 0x200 (List.replicate 3585 1) Chippy.new).1).memory.getD 0x200 0 = 1 := by
  have hlen : Chippy.new.memory.length = 4096 := by
    rw [show Chippy.new.memory = List.replicate 4096 0 from rfl, List.length_replicate]
  constructor
  · exact load_run_false_of_overflow _ 0x200 _ hlen (by norm_num)
      (by rw [List.length_replicate]; norm_num)
  · rw [show List.replicate 3585 1 = 1 :: List.replicate 3584 1 from rfl,
      load_run_cons _ _ _ _ (by rw [hlen]; norm_num),
      load_run_getD_of_lt (List.replicate 3584 1) (0x200 + 1) 0x200 0 _ (by norm_num)]
    exact getD_set_self (by rw [hlen]; norm_num)

lemma regs_to_mem_spec (v : List Nat) (base : Nat) :
    ∀ cnt k m, base + k + cnt ≤ m.length →
      ∃ m2, regs_to_mem v base k cnt m = some m2 ∧ m2.length = m.length ∧
        (∀ j, j < base + k ∨ base + k + cnt ≤ j → m2.get? j = m.get? j) ∧
        (∀ j, k ≤ j → j < k + cnt → m2.get? (base + j) = some (v.getD j 0)) := by
  intro cnt
  induction cnt with
  | zero =>
    intro k m _
    exact ⟨m, rfl, rfl, fun j _ => rfl, fun j h1 h2 => absurd h2 (by omega)⟩
  | succ n ih =>
    intro k m h
    have hk : base + k < m.length := by omega
    obtain ⟨m2, hrun, hlen, hout, hin⟩ :=
      ih (k + 1) (m.set (base + k) (v.getD k 0)) (by rw [List.length_set]; omega)
    have hlen2 : m2.length = m.length := by rw [hlen, List.length_set]
    refine ⟨m2, ?_, hlen2, ?_, ?_⟩
    · simp only [regs_to_mem, wr, if_pos hk, Option.some_bind]
      exact hrun
    · intro j hj
      rw [hout j (by omega), List.get?_eq_getElem?, List.get?_eq_getElem?,
        List.getElem?_set_ne (by omega : base + k ≠ j)]
    · intro j hj1 hj2
      by_cases hjk : j = k
      · subst hjk
        rw [hout (base + j) (by omega), List.get?_eq_getElem?,
          List.getElem?_set_self (by omega)]
      · exact hin j (by omega) (by omega)

lemma mem_to_regs_spec (m : List Nat) (base : Nat) :
    ∀ cnt k v, base + k + cnt ≤ m.length →
      ∃ v2, mem_to_regs m base k cnt v = some v2 ∧ v2.length = v.length ∧
        (∀ j, j < k ∨ k + cnt ≤ j → v2.get? j = v.get? j) ∧
        (∀ j, k ≤ j → j < k + cnt → j < v.length → v2.get? j = m.get? (base + j)) := by
  intro cnt
  induction cnt with
  | zero =>
    intro k v _
    exact ⟨v, rfl, rfl, fun j _ => rfl, fun j h1 h2 _ => absurd h2 (by omega)⟩
  | succ n ih =>
    intro k v h
    have hk : base + k < m.length := by omega
    obtain ⟨b, hb⟩ : ∃ b, m.get? (base + k) = some b := by
      rw [List.get?_eq_getElem?]
      exact ⟨_, List.getElem?_eq_getElem hk⟩
    obtain ⟨v2, hrun, hlen, hout, hin⟩ := ih (k + 1) (v.set k b) (by omega)
    have hlen2 : v2.length = v.length := by rw [hlen, List.length_set]
    refine ⟨v2, ?_, hlen2, ?_, ?_⟩
    · simp only [mem_to_regs, hb, Option.some_bind]
      exact hrun
    · intro j hj
      rw [hout j (by omega), List.get?_eq_getElem?, List.get?_eq_getElem?,
        List.getElem?_set_ne (by omega : k ≠ j)]
    · intro j hj1 hj2 hjv
      by_cases hjk : j = k
      · subst hjk
        rw [hout j (by omega), List.get?_eq_getElem?,
          List.getElem?_set_self hjv]
        exact hb.symm
      · exact hin j (by omega) (by omega) (by rw [List.length_set]; exact hjv)

/-- Claim C8, confirmed.  `Fx55` copies `V0..Vx` into memory at
`I, I+1, ..., I+x` and `Fx65` copies them back; neither touches `I`
(this interpreter has no `Fx55`/`Fx65` auto-increment).  So for any
state with `I + 3` in bounds and any `x ≤ 3`, storing, overwriting the
whole register file with arbitrary values `w`, and loading again
restores `V0..Vx` exactly. -/
theorem store_load_roundtrip (s : Chippy) (x : Nat) (hx : x ≤ 3)
    (hm : s.memory.length = 4096) (hi : s.i + 3 < 4096)
    (w : List Nat) (hw : w.length = 16) :
    ∃ s1 s2, exec_op 0 (0xF055 ||| (x <<< 8)) s = some s1 ∧
      exec_op 0 (0xF065 ||| (x <<< 8)) { s1 with v := w } = some s2 ∧
      ∀ k, k ≤ x → s2.v.getD k 0 = s.v.getD k 0 := by
  have hd1 : ∀ t : Chippy, exec_op 0 (0xF055 ||| (x <<< 8)) t =
      Option.map cycle_end ((regs_to_mem t.v t.i 0 (x + 1) t.memory).bind
        fun m => some { t with memory := m }) := by
    interval_cases x <;> exact fun t => rfl
  have hd2 : ∀ t : Chippy, exec_op 0 (0xF065 ||| (x <<< 8)) t =
      Option.map cycle_end ((mem_to_regs t.memory t.i 0 (x + 1) t.v).bind
        fun vv => some { t with v := vv }) := by
    interval_cases x <;> exact fun t => rfl
  obtain ⟨m2, hrun, hlen, hout, hin⟩ :=
    regs_to_mem_spec s.v s.i (x + 1) 0 s.memory (by omega)
  obtain ⟨v2, hrun2, hlen2, hout2, hin2⟩ :=
    mem_to_regs_spec m2 s.i (x + 1) 0 w (by omega)
  refine ⟨cycle_end { s with memory := m2 },
    cycle_end { { cycle_end { s with memory := m2 } with v := w } with v := v2 },
    ?_, ?_, ?_⟩
  · rw [hd1 s, hrun]
    rfl
  · rw [hd2 { cycle_end { s with memory := m2 } with v := w }]
    simp only [cycle_end_memory, cycle_end_i]
    rw [hrun2]
    rfl
  · intro k hk
    rw [cycle_end_v]
    show v2.getD k 0 = s.v.getD k 0
    rw [List.getD_eq_getElem?_getD, ← List.get?_eq_getElem?,
      hin2 k (by omega) (by omega) (by omega),
      hin k (by omega) (by omega)]
    rfl

/-- Witness for C8 at a concrete state: `V0..V3 = AA BB CC DD`,
`I = 0x320`, registers cleared between store and load. -/
theorem store_load_roundtrip_witness :
    ∃ s1 s2, exec_op 0 (0xF055 ||| (3 <<< 8)) bulk_test_state = some s1 ∧
      exec_op 0 (0xF065 ||| (3 <<< 8)) { s1 with v := List.replicate 16 0 } = some s2 ∧
      ∀ k, k ≤ 3 → s2.v.getD k 0 = bulk_test_state.v.getD k 0 :=
  store_load_roundtrip bulk_test_state 3 (by norm_num)
    (by rw [show bulk_test_state.memory = List.replicate 4096 0 from rfl,
      List.length_replicate])
    (by show (0x320:Nat) + 3 < 4096; norm_num)
    (List.replicate 16 0) (List.length_replicate 16 0)

/-- Claim C9, confirmed (for registers `x = 0`, `y = 1`; VF is register
15 and is written after / read before exactly as in the source).  For
all byte values in `V0`, `V1`: `8014` (ADD) leaves `V0 = (V0+V1) mod
256` and `VF = carry`; `8015` (SUB) leaves `V0 = V0 - V1` wrapped and
`VF = 1` iff no borrow; `8016` (SHR) leaves `V0` halved and `VF` the
shifted-out low bit; `801E` (SHL) leaves `V0` doubled mod 256 and `VF`
the shifted-out high bit. -/
theorem alu_vf_conventions (s : Chippy) (hv : s.v.length = 16)
    (_ha : s.v.getD 0 0 < 256) (_hb : s.v.getD 1 0 < 256) :
    (∃ t, exec_op 0 0x8014 s = some t ∧
      t.v.getD 0 0 = (s.v.getD 0 0 + s.v.getD 1 0) % 256 ∧
      t.v.getD 0xF 0 = if 256 ≤ s.v.getD 0 0 + s.v.getD 1 0 then 1 else 0) ∧
    (∃ t, exec_op 0 0x8015 s = some t ∧
      t.v.getD 0 0 = (s.v.getD 0 0 + 256 - s.v.getD 1 0) % 256 ∧
      t.v.getD 0xF 0 = if s.v.getD 0 0 < s.v.getD 1 0 then 0 else 1) ∧
    (∃ t, exec_op 0 0x8016 s = some t ∧
      t.v.getD 0 0 = s.v.getD 0 0 / 2 ∧
      t.v.getD 0xF 0 = s.v.getD 0 0 % 2) ∧
    (∃ t, exec_op 0 0x801E s = some t ∧
      t.v.getD 0 0 = s.v.getD 0 0 * 2 % 256 ∧
      t.v.getD 0xF 0 = s.v.getD 0 0 / 128 % 2) := by
  have hadd : exec_op 0 0x8014 s = some (cycle_end { s with
      v := (s.v.set 0 ((s.v.getD 0 0 + s.v.getD 1 0) % 256)).set 15
        (if 256 ≤ s.v.getD 0 0 + s.v.getD 1 0 then 1 else 0) }) := rfl
  have hsub : exec_op 0 0x8015 s = some (cycle_end { s with
      v := (s.v.set 0 ((s.v.getD 0 0 + 256 - s.v.getD 1 0) % 256)).set 15
        (if s.v.getD 0 0 < s.v.getD 1 0 then 0 else 1) }) := rfl
  have hshr : exec_op 0 0x8016 s = some (cycle_end { s with
      v := (s.v.set 15 (s.v.getD 0 0 &&& 1)).set 0
        ((s.v.set 15 (s.v.getD 0 0 &&& 1)).getD 0 0 >>> 1) }) := rfl
  have hshl : exec_op 0 0x801E s = some (cycle_end { s with
      v := (s.v.set 15 ((s.v.getD 0 0 >>> 7) &&& 1)).set 0
        (((s.v.set 15 ((s.v.getD 0 0 >>> 7) &&& 1)).getD 0 0 <<< 1) % 256) }) := rfl
  refine ⟨⟨_, hadd, ?_, ?_⟩, ⟨_, hsub, ?_, ?_⟩, ⟨_, hshr, ?_, ?_⟩, ⟨_, hshl, ?_, ?_⟩⟩
  · rw [cycle_end_v]
    show ((s.v.set 0 _).set 15 _).getD 0 0 = _
    rw [getD_set_ne (show (15:Nat) ≠ 0 by norm_num), getD_set_self (by omega)]
  · rw [cycle_end_v]
    show ((s.v.set 0 _).set 15 _).getD 15 0 = _
    rw [getD_set_self (by rw [List.length_set]; omega)]
  · rw [cycle_end_v]
    show ((s.v.set 0 _).set 15 _).getD 0 0 = _
    rw [getD_set_ne (show (15:Nat) ≠ 0 by norm_num), getD_set_self (by omega)]
  · rw [cycle_end_v]
    show ((s.v.set 0 _).set 15 _).getD 15 0 = _
    rw [getD_set_self (by rw [List.length_set]; omega)]
  · rw [cycle_end_v]
    show ((s.v.set 15 _).set 0 _).getD 0 0 = _
    rw [getD_set_self (by rw [List.length_set]; omega),
      getD_set_ne (show (15:Nat) ≠ 0 by norm_num), Nat.shiftRight_eq_div_pow]
  · rw [cycle_end_v]
    show ((s.v.set 15 _).set 0 _).getD 15 0 = _
    rw [getD_set_ne (show (0:Nat) ≠ 15 by norm_num),
      getD_set_self (by omega), Nat.and_one_is_mod]
  · rw [cycle_end_v]
    show ((s.v.set 15 _).set 0 _).getD 0 0 = _
    rw [getD_set_self (by rw [List.length_set]; omega),
      getD_set_ne (show (15:Nat) ≠ 0 by norm_num), Nat.shiftLeft_eq]
  · rw [cycle_end_v]
    show ((s.v.set 15 _).set 0 _).getD 15 0 = _
    rw [getD_set_ne (show (0:Nat) ≠ 15 by norm_num),
      getD_set_self (by omega), Nat.and_one_is_mod, Nat.shiftRight_eq_div_pow]

/-- Witness for C9 at the concrete values of the claim:
`FF + 01 → 00, VF=1`; `01 - 02 → FF, VF=0`; `81 SHR → 40, VF=1`;
`81 SHL → 02, VF=1`. -/
theorem alu_vf_conventions_witness :
    (∃ t, exec_op 0 0x8014 alu_add_state = some t ∧
      t.v.getD 0 0 = 0x00 ∧ t.v.getD 0xF 0 = 1) ∧
    (∃ t, exec_op 0 0x8015 alu_sub_state = some t ∧
      t.v.getD 0 0 = 0xFF ∧ t.v.getD 0xF 0 = 0) ∧
    (∃ t, exec_op 0 0x8016 alu_shift_state = some t ∧
      t.v.getD 0 0 = 0x40 ∧ t.v.getD 0xF 0 = 1) ∧
    (∃ t, exec_op 0 0x801E alu_shift_state = some t ∧
      t.v.getD 0 0 = 0x02 ∧ t.v.getD 0xF 0 = 1) :=
  ⟨(alu_vf_conventions alu_add_state (by decide) (by decide) (by decide)).1,
   (alu_vf_conventions alu_sub_state (by decide) (by decide) (by decide)).2.1,
   (alu_vf_conventions alu_shift_state (by decide) (by decide) (by decide)).2.2.1,
   (alu_vf_conventions alu_shift_state (by decide) (by decide) (by decide)).2.2.2⟩

/-- Claim C10, confirmed.  The `Dxyn` handler always ends with
`self.i += n` (line 274), so whenever a draw completes (does not panic
on an out-of-bounds sprite read), the index register has gained exactly
`n = ` the low nibble of the opcode, and in particular a completed draw
with `n > 0` never leaves `I` unchanged. -/
theorem draw_adds_n_to_index (rnd op : Nat) (s s2 : Chippy)
    (hop : op &&& 0xF000 = 0xD000) (hwrap : s.i + (op &&& 0xF) < 65536)
    (h : exec_op rnd op s = some s2) :
    s2.i = s.i + (op &&& 0xF) ∧ (op &&& 0xF ≠ 0 → s2.i ≠ s.i) := by
  have hD : exec_op rnd op s = Option.map cycle_end
      ((draw_rows s.memory s.i (s.v.getD ((op &&& 0x0F00) >>> 8) 0 % 64)
        (s.v.getD ((op &&& 0x00F0) >>> 4) 0 % 32) 0 (op &&& 0x0F) s.display 0).bind
        fun r => some { s with
          display := r.1
          v := (s.v.set 0xF 0).set 0xF r.2
          i := (s.i + (op &&& 0x0F)) % 65536 }) := by
    simp only [exec_op, exec_opcode, hop]
    rw [if_neg (by decide : ¬((0xD000:Nat) = 0xA000)),
      if_neg (by decide : ¬((0xD000:Nat) = 0x00E0)),
      if_neg (by decide : ¬((0xD000:Nat) = 0x0000)),
      if_neg (by decide : ¬((0xD000:Nat) = 0x1000)),
      if_neg (by decide : ¬((0xD000:Nat) = 0x2000)),
      if_neg (by decide : ¬((0xD000:Nat) = 0x00EE)),
      if_neg (by decide : ¬((0xD000:Nat) = 0x3000)),
      if_neg (by decide : ¬((0xD000:Nat) = 0x4000)),
      if_neg (by decide : ¬((0xD000:Nat) = 0x5000)),
      if_neg (by decide : ¬((0xD000:Nat) = 0x9000)),
      if_neg (by decide : ¬((0xD000:Nat) = 0x6000)),
      if_neg (by decide : ¬((0xD000:Nat) = 0x7000)),
      if_neg (by decide : ¬((0xD000:Nat) = 0x8000)),
      if_neg (by decide : ¬((0xD000:Nat) = 0xB000)),
      if_neg (by decide : ¬((0xD000:Nat) = 0xC000)), if_true]
    rfl
  have key : s2.i = (s.i + (op &&& 0xF)) % 65536 := by
    rw [hD] at h
    cases hdr : draw_rows s.memory s.i (s.v.getD ((op &&& 0x0F00) >>> 8) 0 % 64)
        (s.v.getD ((op &&& 0x00F0) >>> 4) 0 % 32) 0 (op &&& 0x0F) s.display 0 with
    | none =>
      rw [hdr] at h
      simp at h
    | some r =>
      rw [hdr] at h
      simp only [Option.some_bind, Option.map_some'] at h
      have h2 := Option.some.inj h
      rw [← h2, cycle_end_i]
  refine ⟨?_, ?_⟩
  · rw [key, Nat.mod_eq_of_lt hwrap]
  · intro hn
    rw [key, Nat.mod_eq_of_lt hwrap]
    omega

/-- Witness for C10: the concrete one-row draw bumps `I` from 2 to 3. -/
theorem draw_adds_n_to_index_witness :
    ∃ s2, exec_op 0 0xD001 draw_test_state = some s2 ∧
      s2.i = draw_test_state.i + (0xD001 &&& 0xF) ∧
      ((0xD001:Nat) &&& 0xF ≠ 0 → s2.i ≠ draw_test_state.i) := by
  obtain ⟨s2, h⟩ : ∃ t, exec_op 0 0xD001 draw_test_state = some t := ⟨_, rfl⟩
  exact ⟨s2, h,
    draw_adds_n_to_index 0 0xD001 draw_test_state s2 (by decide) (by decide) h⟩

end Chip8
